import Mathlib

/-!
Verification of `src/compare_directories.py` (a directory-comparison GUI tool).

The comparison core is embedded shallowly:

* a filesystem is a finite map from paths to directory listings; a listing
  maps entry names to the observable state of a regular file (byte content
  and `st_mtime`);
* `os.path.isdir`, `os.listdir` and `os.stat` become total Lean functions
  over that map (`listdir` returns `none` to model the `FileNotFoundError`
  raised on a path that is not a directory);
* `st_mtime` is a Python float (seconds); it is abstracted as an exact
  rational, so the float arithmetic `abs(..)/60` becomes exact `ℚ`
  arithmetic and Python's `str(float)` becomes `toString (q : ℚ)`;
* `set(os.listdir(d))` is modelled as the deduplicated listing, and
  iteration over a set (and over set difference / intersection) as a
  filtered traversal of that list, which fixes one admissible iteration
  order;
* the GUI collaborators (save dialog, table widget) are passed in as data:
  the dialog's chosen path is an argument, and the table's rows are the
  list being sorted.
-/

/-- Observable state of a regular file: its byte content and its `st_mtime`
timestamp in seconds. `st_size` is the byte length of the content. -/
structure FileInfo where
  content : List Nat
  mtime : ℚ
deriving DecidableEq, Inhabited

/-- Model of `os.stat(..).st_size` for a regular file: the byte count of its
content. -/
def FileInfo.st_size (fi : FileInfo) : Nat := fi.content.length

/-- A directory's immediate entries in `os.listdir` order: names paired with
the corresponding file state. -/
abbrev DirListing := List (String × FileInfo)

/-- A filesystem: a finite map from paths to directory listings. A path not
in the map does not resolve to a directory. -/
structure FS where
  dirs : List (String × DirListing)

/-- Listing associated to a path, when the path is a directory. -/
def FS.lookupDir (fs : FS) (p : String) : Option DirListing := fs.dirs.lookup p

/-- Model of `os.path.isdir`. -/
def FS.isdir (fs : FS) (p : String) : Bool := (fs.lookupDir p).isSome

/-- Model of `os.listdir`: the entry names of a directory; `none` models the
`FileNotFoundError` raised when the path is not a directory. -/
def FS.listdir (fs : FS) (p : String) : Option (List String) :=
  (fs.lookupDir p).map (fun l => l.map Prod.fst)

/-- Model of `os.stat(os.path.join(dir, name))` for a name listed in `dir`. -/
def FS.stat (fs : FS) (dir name : String) : FileInfo :=
  (((fs.lookupDir dir).getD []).lookup name).getD default

/-- One row of the result DataFrame: the five columns of line 88 of the
source. All cells are strings, exactly as the source builds them. -/
structure Row where
  file_name : String
  status_a : String
  status_b : String
  size_difference : String
  time_difference : String
deriving DecidableEq

/-- Sentinel cell, line 48 of the source (`n_a_symbol = "-"`). -/
def n_a_symbol : String := "-"

/-- Status string, line 49 of the source. -/
def present : String := "Present"

/-- Status string, line 50 of the source. -/
def missing : String := "Missing"

/-- Status string, line 51 of the source. -/
def different_size : String := "Different Size"

/-- Model of `filecmp.cmp(path_a, path_b, shallow=False)` on regular files:
with `shallow=False` the library compares the two files byte for byte (its
preliminary size check is implied by content equality), so for regular files
it returns exactly content equality. -/
def filecmp_cmp (a b : FileInfo) : Bool := a.content == b.content

/-- Lines 57-59 of the source: the loop over `dir_a_files - dir_b_files`,
one `(file, present, missing, "-", "-")` tuple per name only in A. -/
def only_in_a_rows (dir_a_files dir_b_files : List String) : List Row :=
  (dir_a_files.filter (fun file => decide (file ∉ dir_b_files))).map
    (fun file => ⟨file, present, missing, n_a_symbol, n_a_symbol⟩)

/-- Lines 61-63 of the source: the loop over `dir_b_files - dir_a_files`. -/
def only_in_b_rows (dir_a_files dir_b_files : List String) : List Row :=
  (dir_b_files.filter (fun file => decide (file ∉ dir_a_files))).map
    (fun file => ⟨file, missing, present, n_a_symbol, n_a_symbol⟩)

/-- Line 66 of the source: `common_files = dir_a_files & dir_b_files`. -/
def common_files (dir_a_files dir_b_files : List String) : List String :=
  dir_a_files.filter (fun file => decide (file ∈ dir_b_files))

/-- Lines 72-84 of the source: body of the loop over `common_files` for one
name. No row when `filecmp.cmp(..., shallow=False)` holds; otherwise the
size and time difference strings are computed and the row depends on the
string comparison `size_diff == "0 bytes"` of line 81. -/
def common_row (stats_a stats_b : FileInfo) (file : String) : Option Row :=
  if filecmp_cmp stats_a stats_b then none
  else
    let size_diff := toString ((stats_a.st_size : Int) - (stats_b.st_size : Int)).natAbs ++ " bytes"
    let time_diff := toString (|stats_a.mtime - stats_b.mtime| / 60) ++ " minutes earlier"
    if size_diff ≠ "0 bytes" then some ⟨file, different_size, different_size, size_diff, time_diff⟩
    else some ⟨file, present, present, n_a_symbol, n_a_symbol⟩

/-- Lines 67-84 of the source: the loop over `common_files`, collecting the
rows `common_row` produces. -/
def different_files_rows (fs : FS) (dir_a dir_b : String) (names : List String) : List Row :=
  names.filterMap (fun file => common_row (fs.stat dir_a file) (fs.stat dir_b file) file)

/-- Possible outcomes of `compare_directories`: the guarded error path of
lines 35-42 (modal "Directory Not Found" shown, `None` returned, no rows
built), an unhandled `FileNotFoundError` escaping from `os.listdir` on the
given path, or the rows of the returned DataFrame. -/
inductive Outcome where
  | dirNotFound : Outcome
  | raisedNotFound (p : String) : Outcome
  | table (rows : List Row) : Outcome
deriving DecidableEq

/-- Shallow embedding of `compare_directories` (lines 23-91 of the source).
The guard of line 35 is transcribed as written there: it tests
`os.path.isdir(dir_a)` twice and never tests `dir_b`. -/
def compare_directories (fs : FS) (dir_a dir_b : String) : Outcome :=
  if !fs.isdir dir_a || !fs.isdir dir_a then .dirNotFound
  else
    match fs.listdir dir_a, fs.listdir dir_b with
    | none, _ => .raisedNotFound dir_a
    | some _, none => .raisedNotFound dir_b
    | some la, some lb =>
      let dir_a_files := la.dedup
      let dir_b_files := lb.dedup
      .table (only_in_a_rows dir_a_files dir_b_files ++
        only_in_b_rows dir_a_files dir_b_files ++
        different_files_rows fs dir_a dir_b (common_files dir_a_files dir_b_files))

/-- Column names of the DataFrame (line 88 of the source), also the CSV
header. -/
def columns : List String :=
  ["File Name", "Directory A Status", "Directory B Status", "Size Difference",
    "Last Modified Difference"]

/-- The cells of one row, in column order, as `DataFrame.itertuples` /
`to_csv` serialize them. -/
def Row.cells (r : Row) : List String :=
  [r.file_name, r.status_a, r.status_b, r.size_difference, r.time_difference]

/-- A CSV file as written by `DataFrame.to_csv(file_path, index=False)`:
the target path, the header record, and one record of cells per row. -/
structure SavedCSV where
  path : String
  header : List String
  data : List (List String)
deriving DecidableEq

/-- Shallow embedding of `export_to_csv` (lines 165-179 of the source). The
save dialog's result is passed in: `asksaveasfilename` returns the chosen
path, or the empty string when the user cancels, and `if file_path:` skips
the write on a falsy value. `none` models "nothing written". -/
def export_to_csv (rows : List Row) (file_path : String) : Option SavedCSV :=
  if file_path.isEmpty then none
  else some ⟨file_path, columns, rows.map Row.cells⟩

/-- A column of the displayed Treeview, identified positionally. -/
inductive Col where
  | name_col : Col
  | status_a_col : Col
  | status_b_col : Col
  | size_col : Col
  | time_col : Col
deriving DecidableEq

/-- The displayed cell text `tree.set(item, column)` of a row in a column. -/
def Row.cell (r : Row) : Col → String
  | Col.name_col => r.file_name
  | Col.status_a_col => r.status_a
  | Col.status_b_col => r.status_b
  | Col.size_col => r.size_difference
  | Col.time_col => r.time_difference

/-- Shallow embedding of `sort_by_column` (lines 150-163 of the source):
`items.sort(key=lambda x: x[0])` is Python's stable sort keyed by the
displayed cell strings under their lexicographic (code-point) order, which
is exactly `List.mergeSort` under the same key order. -/
def sort_by_column (rows : List Row) (col : Col) : List Row :=
  rows.mergeSort (fun x y => decide (x.cell col ≤ y.cell col))

/-- A row with the A and B status columns exchanged. -/
def Row.swap (r : Row) : Row :=
  ⟨r.file_name, r.status_b, r.status_a, r.size_difference, r.time_difference⟩

/-- Filesystem for the error-path check: `dirA` exists (empty) and `dirB`
does not exist. -/
def fs_only_a : FS := ⟨[("dirA", [])]⟩

/-- Row with the numeric-looking size cell "200 bytes". -/
def demo_row_200 : Row :=
  ⟨"image.png", different_size, different_size, "200 bytes", "2 minutes earlier"⟩

/-- Row with the numeric-looking size cell "30 bytes". -/
def demo_row_30 : Row :=
  ⟨"notes.txt", different_size, different_size, "30 bytes", "2 minutes earlier"⟩

/-- Concrete filesystem: "ident.txt" byte-identical on both sides,
"meta.txt" with identical size and mtime but different bytes, and one file
unique to each side. -/
def fs_demo : FS :=
  ⟨[("A", [("ident.txt", ⟨[49, 50], 0⟩), ("meta.txt", ⟨[53], 7⟩), ("onlyA.txt", ⟨[57], 0⟩)]),
    ("B", [("ident.txt", ⟨[49, 50], 0⟩), ("meta.txt", ⟨[54], 7⟩), ("onlyB.txt", ⟨[56], 0⟩)])]⟩

/-- Entry names of `fs_demo`'s directory "A". -/
def demo_la : List String := ["ident.txt", "meta.txt", "onlyA.txt"]

/-- Entry names of `fs_demo`'s directory "B". -/
def demo_lb : List String := ["ident.txt", "meta.txt", "onlyB.txt"]

/-- Rows of `compare_directories fs_demo "A" "B"`. -/
def demo_rows : List Row :=
  [⟨"onlyA.txt", present, missing, n_a_symbol, n_a_symbol⟩,
    ⟨"onlyB.txt", missing, present, n_a_symbol, n_a_symbol⟩,
    ⟨"meta.txt", present, present, n_a_symbol, n_a_symbol⟩]

/-- Rows of `compare_directories fs_demo "B" "A"`. -/
def demo_rows_ba : List Row :=
  [⟨"onlyB.txt", present, missing, n_a_symbol, n_a_symbol⟩,
    ⟨"onlyA.txt", missing, present, n_a_symbol, n_a_symbol⟩,
    ⟨"meta.txt", present, present, n_a_symbol, n_a_symbol⟩]

/-- Concrete filesystem for the size-differing case: "size.txt" has 3 bytes
and mtime 0 on side A, 1 byte and mtime 60 on side B. -/
def fs_demo2 : FS :=
  ⟨[("A", [("size.txt", ⟨[49, 50, 51], 0⟩)]), ("B", [("size.txt", ⟨[49], 60⟩)])]⟩

/-- The Different Size row `compare_directories fs_demo2 "A" "B"` produces
(size difference 2 bytes; time difference 60 seconds, i.e. one minute). -/
def demo_ds_row : Row :=
  ⟨"size.txt", different_size, different_size,
    toString (((fs_demo2.stat "A" "size.txt").st_size : Int) -
      ((fs_demo2.stat "B" "size.txt").st_size : Int)).natAbs ++ " bytes",
    toString (|(fs_demo2.stat "A" "size.txt").mtime -
      (fs_demo2.stat "B" "size.txt").mtime| / 60) ++ " minutes earlier"⟩

theorem isdir_of_listdir {fs : FS} {p : String} {l : List String}
    (h : fs.listdir p = some l) : fs.isdir p = true := by
  unfold FS.listdir at h
  unfold FS.isdir
  cases hl : fs.lookupDir p with
  | none => rw [hl] at h; cases h
  | some d => rfl

/-- When both paths are directories, `compare_directories` reaches line 87
and returns the concatenation of the three row groups. -/
theorem compare_directories_table {fs : FS} {dir_a dir_b : String} {la lb : List String}
    (ha : fs.listdir dir_a = some la) (hb : fs.listdir dir_b = some lb) :
    compare_directories fs dir_a dir_b =
      Outcome.table (only_in_a_rows la.dedup lb.dedup ++ only_in_b_rows la.dedup lb.dedup ++
        different_files_rows fs dir_a dir_b (common_files la.dedup lb.dedup)) := by
  unfold compare_directories
  rw [isdir_of_listdir ha, ha, hb]
  rfl

theorem toDigitsCore_len_lower (b : Nat) :
    ∀ (fuel n : Nat) (l : List Char), 0 < fuel →
      l.length + 1 ≤ (Nat.toDigitsCore b fuel n l).length := by
  intro fuel
  induction fuel with
  | zero => intro n l h; exact absurd h (by omega)
  | succ fuel ih =>
    intro n l _
    simp only [Nat.toDigitsCore]
    split
    · simp
    · cases fuel with
      | zero => simp [Nat.toDigitsCore]
      | succ fuel =>
        have h := ih (n / b) (Nat.digitChar (n % b) :: l) (by omega)
        simp only [List.length_cons] at h
        omega

theorem repr_len_lower {n : Nat} (h : 10 ≤ n) : 2 ≤ (Nat.repr n).length := by
  have hdiv : ¬ n / 10 = 0 := by omega
  have hcore : 2 ≤ (Nat.toDigitsCore 10 (n + 1) n []).length := by
    cases n with
    | zero => omega
    | succ m =>
      simp only [Nat.toDigitsCore]
      rw [if_neg hdiv]
      have := toDigitsCore_len_lower 10 (m + 1) ((m + 1) / 10)
        [Nat.digitChar ((m + 1) % 10)] (by omega)
      simpa using this
  simpa [Nat.repr, Nat.toDigits, String.length, List.asString] using hcore

theorem repr_ne_zero_str {n : Nat} (h : n ≠ 0) : Nat.repr n ≠ "0" := by
  by_cases h10 : n < 10
  · have h1 : 1 ≤ n := Nat.pos_of_ne_zero h
    interval_cases n <;> decide
  · intro heq
    have h2 := repr_len_lower (Nat.le_of_not_lt h10)
    rw [heq] at h2
    exact absurd h2 (by decide)

/-- The string `str(abs(size_a - size_b)) + " bytes"` of line 77 equals the
`"0 bytes"` of line 81 exactly when the two sizes agree. -/
theorem size_diff_eq_zero_bytes_iff (m n : Nat) :
    (toString ((m : Int) - (n : Int)).natAbs ++ " bytes" = "0 bytes") ↔ m = n := by
  constructor
  · intro heq
    by_contra hmn
    have habs : ((m : Int) - (n : Int)).natAbs ≠ 0 := by omega
    apply repr_ne_zero_str habs
    have hdata := congrArg String.data heq
    have h0 : ("0 bytes" : String) = "0" ++ " bytes" := rfl
    rw [h0] at hdata
    simp only [String.data_append] at hdata
    exact String.ext (List.append_cancel_right hdata)
  · intro heq
    subst heq
    have : ((m : Int) - (m : Int)).natAbs = 0 := by omega
    rw [this]
    rfl

theorem common_row_of_eq_content {a b : FileInfo} (h : a.content = b.content) (f : String) :
    common_row a b f = none := by
  unfold common_row
  rw [if_pos]
  simp [filecmp_cmp, h]

theorem filecmp_cmp_eq_false {a b : FileInfo} (h : a.content ≠ b.content) :
    filecmp_cmp a b = false := by
  simp [filecmp_cmp, h]

theorem common_row_of_same_size {a b : FileInfo} (hc : a.content ≠ b.content)
    (hs : a.st_size = b.st_size) (f : String) :
    common_row a b f = some ⟨f, present, present, n_a_symbol, n_a_symbol⟩ := by
  unfold common_row
  rw [if_neg (by simp [filecmp_cmp_eq_false hc])]
  rw [if_neg]
  simp only [ne_eq, Decidable.not_not]
  exact (size_diff_eq_zero_bytes_iff _ _).mpr hs

theorem common_row_of_diff_size {a b : FileInfo} (hs : a.st_size ≠ b.st_size) (f : String) :
    common_row a b f =
      some ⟨f, different_size, different_size,
        toString ((a.st_size : Int) - (b.st_size : Int)).natAbs ++ " bytes",
        toString (|a.mtime - b.mtime| / 60) ++ " minutes earlier"⟩ := by
  have hc : a.content ≠ b.content := by
    intro h
    exact hs (by simp [FileInfo.st_size, h])
  unfold common_row
  rw [if_neg (by simp [filecmp_cmp_eq_false hc])]
  rw [if_pos]
  intro h
  exact hs ((size_diff_eq_zero_bytes_iff _ _).mp h)

theorem common_row_ne_none {a b : FileInfo} (hc : a.content ≠ b.content) (f : String) :
    common_row a b f ≠ none := by
  unfold common_row
  rw [if_neg (by simp [filecmp_cmp_eq_false hc])]
  dsimp only
  split <;> simp

theorem common_row_name {a b : FileInfo} {f : String} {r : Row}
    (h : common_row a b f = some r) : r.file_name = f := by
  unfold common_row at h
  split at h
  · cases h
  · dsimp only at h
    split at h <;> (cases h; rfl)

theorem common_row_of_some {a b : FileInfo} {f : String} {r : Row}
    (h : common_row a b f = some r) : a.content ≠ b.content := by
  intro hc
  rw [common_row_of_eq_content hc] at h
  cases h

theorem filter_beq_eq_nil {l : List String} {f : String} (hf : f ∉ l) (q : String → Bool) :
    l.filter (fun x => x == f && q x) = [] := by
  rw [List.filter_eq_nil_iff]
  intro a ha hpa
  simp only [Bool.and_eq_true, beq_iff_eq] at hpa
  exact hf (hpa.1 ▸ ha)

theorem filter_beq_eq_single {l : List String} (hn : l.Nodup) {f : String} (hf : f ∈ l)
    (q : String → Bool) :
    l.filter (fun x => x == f && q x) = if q f then [f] else [] := by
  induction l with
  | nil => cases hf
  | cons a l ih =>
    rcases List.nodup_cons.mp hn with ⟨hna, hnl⟩
    rw [List.filter_cons]
    by_cases haf : a = f
    · subst haf
      have h0 : l.filter (fun x => x == a && q x) = [] := filter_beq_eq_nil hna q
      by_cases hq : q a = true
      · simp [hq, h0]
      · simp [Bool.eq_false_iff.mpr hq, h0]
    · have hfl : f ∈ l := by
        rcases List.mem_cons.mp hf with h | h
        · exact absurd h.symm haf
        · exact h
      have hfalse : (a == f && q a) = false := by simp [haf]
      rw [hfalse]
      simpa using ih hnl hfl

/-- Filtering a mapped-over filtered name list by a name that is kept picks
exactly that name's row. -/
theorem builder_filter_pos {A : List String} {p : String → Bool} (hA : A.Nodup)
    (mk : String → Row) (hmk : ∀ x, (mk x).file_name = x) {f : String}
    (hfa : f ∈ A) (hp : p f = true) :
    ((A.filter p).map mk).filter (fun r => r.file_name == f) = [mk f] := by
  have h1 : ((A.filter p).map mk).filter (fun r => r.file_name == f) =
      ((A.filter p).filter (fun x => x == f)).map mk := by
    rw [List.filter_map]
    congr 1
    apply List.filter_congr
    intro x _
    simp [Function.comp, hmk x]
  rw [h1, List.filter_filter, filter_beq_eq_single hA hfa p, if_pos hp]
  rfl

/-- Filtering a mapped-over filtered name list by a name that is absent or
rejected yields nothing. -/
theorem builder_filter_neg {A : List String} {p : String → Bool}
    (mk : String → Row) (hmk : ∀ x, (mk x).file_name = x) {f : String}
    (h : f ∉ A ∨ p f = false) :
    ((A.filter p).map mk).filter (fun r => r.file_name == f) = [] := by
  rw [List.filter_eq_nil_iff]
  intro r hr hpr
  rcases List.mem_map.mp hr with ⟨x, hx, rfl⟩
  rcases List.mem_filter.mp hx with ⟨hxA, hxp⟩
  rw [hmk x, beq_iff_eq] at hpr
  subst hpr
  rcases h with h | h
  · exact h hxA
  · rw [h] at hxp; cases hxp

theorem filterMap_builder_filter_nil (g : String → Option Row)
    (hg : ∀ x r, g x = some r → r.file_name = x) {names : List String} {f : String}
    (hf : f ∉ names) :
    (names.filterMap g).filter (fun r => r.file_name == f) = [] := by
  rw [List.filter_eq_nil_iff]
  intro r hr hpr
  rcases List.mem_filterMap.mp hr with ⟨x, hx, hgx⟩
  rw [beq_iff_eq] at hpr
  rw [hg x r hgx] at hpr
  exact hf (hpr ▸ hx)

theorem filterMap_builder_filter_single (g : String → Option Row)
    (hg : ∀ x r, g x = some r → r.file_name = x) {names : List String} (hn : names.Nodup)
    {f : String} (hf : f ∈ names) :
    (names.filterMap g).filter (fun r => r.file_name == f) = (g f).toList := by
  induction names with
  | nil => cases hf
  | cons a l ih =>
    rcases List.nodup_cons.mp hn with ⟨hna, hnl⟩
    rw [List.filterMap_cons]
    by_cases haf : a = f
    · subst haf
      have hrest : (l.filterMap g).filter (fun r => r.file_name == a) = [] :=
        filterMap_builder_filter_nil g hg hna
      cases hga : g a with
      | none => simp [hrest]
      | some r =>
        have hname : r.file_name = a := hg a r hga
        simp [List.filter_cons, hname, hrest]
    · have hfl : f ∈ l := by
        rcases List.mem_cons.mp hf with h | h
        · exact absurd h.symm haf
        · exact h
      cases hga : g a with
      | none => exact ih hnl hfl
      | some r =>
        have hname : (r.file_name == f) = false := by
          simp [hg a r hga, haf]
        rw [List.filter_cons, hname]
        simpa using ih hnl hfl

theorem rows_eq_of_table {fs : FS} {dir_a dir_b : String} {la lb : List String}
    {rows : List Row}
    (ha : fs.listdir dir_a = some la) (hb : fs.listdir dir_b = some lb)
    (ht : compare_directories fs dir_a dir_b = Outcome.table rows) :
    rows = only_in_a_rows la.dedup lb.dedup ++ only_in_b_rows la.dedup lb.dedup ++
      different_files_rows fs dir_a dir_b (common_files la.dedup lb.dedup) := by
  have h := (compare_directories_table ha hb).symm.trans ht
  injection h with h
  exact h.symm

/-- For a name present in both listings, the result rows carrying that name
are exactly what the common-files loop body produces for it. -/
theorem rows_filter_of_mem_both {fs : FS} {dir_a dir_b : String} {la lb : List String}
    {f : String} {rows : List Row}
    (ha : fs.listdir dir_a = some la) (hb : fs.listdir dir_b = some lb)
    (ht : compare_directories fs dir_a dir_b = Outcome.table rows)
    (hfa : f ∈ la) (hfb : f ∈ lb) :
    rows.filter (fun r => r.file_name == f) =
      (common_row (fs.stat dir_a f) (fs.stat dir_b f) f).toList := by
  rw [rows_eq_of_table ha hb ht]
  rw [List.filter_append, List.filter_append]
  unfold only_in_a_rows only_in_b_rows different_files_rows common_files
  rw [builder_filter_neg _ (fun x => rfl) (Or.inr (by simp [List.mem_dedup, hfb]))]
  rw [builder_filter_neg _ (fun x => rfl) (Or.inr (by simp [List.mem_dedup, hfa]))]
  rw [filterMap_builder_filter_single
    (fun file => common_row (fs.stat dir_a file) (fs.stat dir_b file) file)
    (fun x r h => common_row_name h)
    (List.Nodup.filter _ (List.nodup_dedup la))
    (List.mem_filter.mpr ⟨List.mem_dedup.mpr hfa, by simp [List.mem_dedup, hfb]⟩)]
  rfl

/-- For a name only in the first listing, the result rows carrying that name
are exactly the single `(file, Present, Missing, "-", "-")` row. -/
theorem rows_filter_of_only_a {fs : FS} {dir_a dir_b : String} {la lb : List String}
    {f : String} {rows : List Row}
    (ha : fs.listdir dir_a = some la) (hb : fs.listdir dir_b = some lb)
    (ht : compare_directories fs dir_a dir_b = Outcome.table rows)
    (hfa : f ∈ la) (hfb : f ∉ lb) :
    rows.filter (fun r => r.file_name == f) =
      [⟨f, present, missing, n_a_symbol, n_a_symbol⟩] := by
  rw [rows_eq_of_table ha hb ht]
  rw [List.filter_append, List.filter_append]
  unfold only_in_a_rows only_in_b_rows different_files_rows common_files
  rw [builder_filter_pos (List.nodup_dedup la) _ (fun x => rfl) (List.mem_dedup.mpr hfa)
    (by simp [List.mem_dedup]; exact hfb)]
  rw [builder_filter_neg _ (fun x => rfl)
    (Or.inl (fun hmem => hfb (List.mem_dedup.mp hmem)))]
  rw [filterMap_builder_filter_nil
    (fun file => common_row (fs.stat dir_a file) (fs.stat dir_b file) file)
    (fun x r h => common_row_name h)
    (fun hmem => hfb (List.mem_dedup.mp (of_decide_eq_true (List.mem_filter.mp hmem).2)))]
  rfl

/-- For a name only in the second listing, the result rows carrying that name
are exactly the single `(file, Missing, Present, "-", "-")` row. -/
theorem rows_filter_of_only_b {fs : FS} {dir_a dir_b : String} {la lb : List String}
    {f : String} {rows : List Row}
    (ha : fs.listdir dir_a = some la) (hb : fs.listdir dir_b = some lb)
    (ht : compare_directories fs dir_a dir_b = Outcome.table rows)
    (hfa : f ∉ la) (hfb : f ∈ lb) :
    rows.filter (fun r => r.file_name == f) =
      [⟨f, missing, present, n_a_symbol, n_a_symbol⟩] := by
  rw [rows_eq_of_table ha hb ht]
  rw [List.filter_append, List.filter_append]
  unfold only_in_a_rows only_in_b_rows different_files_rows common_files
  rw [builder_filter_neg _ (fun x => rfl)
    (Or.inl (fun hmem => hfa (List.mem_dedup.mp hmem)))]
  rw [builder_filter_pos (List.nodup_dedup lb) _ (fun x => rfl) (List.mem_dedup.mpr hfb)
    (by simp [List.mem_dedup]; exact hfa)]
  rw [filterMap_builder_filter_nil
    (fun file => common_row (fs.stat dir_a file) (fs.stat dir_b file) file)
    (fun x r h => common_row_name h)
    (fun hmem => hfa (List.mem_dedup.mp (List.mem_filter.mp hmem).1))]
  rfl

/-- C2: for a name present in both directories, the classification of the
common entry is decided purely by the byte-for-byte content comparison —
no metadata occurs in the hypotheses — and a name whose two files are
byte-identical appears in zero rows of the result, while a byte-differing
pair always contributes a row. -/
theorem C2_byte_content_decides (fs : FS) (dir_a dir_b f : String) (la lb : List String)
    (rows : List Row)
    (ha : fs.listdir dir_a = some la) (hb : fs.listdir dir_b = some lb)
    (ht : compare_directories fs dir_a dir_b = Outcome.table rows)
    (hfa : f ∈ la) (hfb : f ∈ lb) :
    ((fs.stat dir_a f).content = (fs.stat dir_b f).content →
      rows.filter (fun r => r.file_name == f) = []) ∧
    ((fs.stat dir_a f).content ≠ (fs.stat dir_b f).content →
      rows.filter (fun r => r.file_name == f) ≠ []) := by
  constructor
  · intro hc
    rw [rows_filter_of_mem_both ha hb ht hfa hfb, common_row_of_eq_content hc]
    rfl
  · intro hc
    rw [rows_filter_of_mem_both ha hb ht hfa hfb]
    cases hcr : common_row (fs.stat dir_a f) (fs.stat dir_b f) f with
    | none => exact absurd hcr (common_row_ne_none hc f)
    | some r => simp

/-- C3: a name in only one of the two listings appears exactly once in the
result — in the `(Present, Missing)` shape with sentinel difference fields
when it is only in A, and in the `(Missing, Present)` shape when it is only
in B. -/
theorem C3_one_sided_names (fs : FS) (dir_a dir_b f : String) (la lb : List String)
    (rows : List Row)
    (ha : fs.listdir dir_a = some la) (hb : fs.listdir dir_b = some lb)
    (ht : compare_directories fs dir_a dir_b = Outcome.table rows) :
    (f ∈ la → f ∉ lb → rows.filter (fun r => r.file_name == f) =
      [⟨f, present, missing, n_a_symbol, n_a_symbol⟩]) ∧
    (f ∈ lb → f ∉ la → rows.filter (fun r => r.file_name == f) =
      [⟨f, missing, present, n_a_symbol, n_a_symbol⟩]) :=
  ⟨fun hfa hfb => rows_filter_of_only_a ha hb ht hfa hfb,
    fun hfb hfa => rows_filter_of_only_b ha hb ht hfa hfb⟩

/-- C4: a name in both directories whose files differ in bytes and in size
appears exactly once, as a `(Different Size, Different Size)` row whose size
field is the exact byte count `|size_A - size_B|` and whose time field is
`|mtime_A - mtime_B|` over 60 (minutes); both fields differ from the
sentinel. -/
theorem C4_different_size_row (fs : FS) (dir_a dir_b f : String) (la lb : List String)
    (rows : List Row)
    (ha : fs.listdir dir_a = some la) (hb : fs.listdir dir_b = some lb)
    (ht : compare_directories fs dir_a dir_b = Outcome.table rows)
    (hfa : f ∈ la) (hfb : f ∈ lb)
    (hc : (fs.stat dir_a f).content ≠ (fs.stat dir_b f).content)
    (hs : (fs.stat dir_a f).st_size ≠ (fs.stat dir_b f).st_size) :
    rows.filter (fun r => r.file_name == f) =
      [⟨f, different_size, different_size,
        toString (((fs.stat dir_a f).st_size : Int) - ((fs.stat dir_b f).st_size : Int)).natAbs ++
          " bytes",
        toString (|(fs.stat dir_a f).mtime - (fs.stat dir_b f).mtime| / 60) ++
          " minutes earlier"⟩] ∧
    toString (((fs.stat dir_a f).st_size : Int) - ((fs.stat dir_b f).st_size : Int)).natAbs ++
      " bytes" ≠ n_a_symbol ∧
    toString (|(fs.stat dir_a f).mtime - (fs.stat dir_b f).mtime| / 60) ++
      " minutes earlier" ≠ n_a_symbol := by
  refine ⟨?_, ?_, ?_⟩
  · rw [rows_filter_of_mem_both ha hb ht hfa hfb, common_row_of_diff_size hs]
    rfl
  · intro h
    have hlen := congrArg String.length h
    rw [String.length_append] at hlen
    have h6 : (" bytes" : String).length = 6 := rfl
    have h1 : (n_a_symbol : String).length = 1 := rfl
    rw [h6, h1] at hlen
    omega
  · intro h
    have hlen := congrArg String.length h
    rw [String.length_append] at hlen
    have h16 : (" minutes earlier" : String).length = 16 := rfl
    have h1 : (n_a_symbol : String).length = 1 := rfl
    rw [h16, h1] at hlen
    omega

/-- C5: a name in both directories whose files differ in bytes but agree in
size appears exactly once, as a `(Present, Present)` row with both
difference fields equal to the sentinel. -/
theorem C5_same_size_row (fs : FS) (dir_a dir_b f : String) (la lb : List String)
    (rows : List Row)
    (ha : fs.listdir dir_a = some la) (hb : fs.listdir dir_b = some lb)
    (ht : compare_directories fs dir_a dir_b = Outcome.table rows)
    (hfa : f ∈ la) (hfb : f ∈ lb)
    (hc : (fs.stat dir_a f).content ≠ (fs.stat dir_b f).content)
    (hs : (fs.stat dir_a f).st_size = (fs.stat dir_b f).st_size) :
    rows.filter (fun r => r.file_name == f) =
      [⟨f, present, present, n_a_symbol, n_a_symbol⟩] := by
  rw [rows_filter_of_mem_both ha hb ht hfa hfb, common_row_of_same_size hc hs]
  rfl

/-- C1: the claim fails on the code. The guard of line 35 reads
`if not os.path.isdir(dir_a) or not os.path.isdir(dir_a)`, testing `dir_a`
twice and never `dir_b`; with an existing `dir_a` and a missing `dir_b` the
function does not take the guarded "Directory Not Found" path but proceeds
to `os.listdir(dir_b)`, which raises an unhandled `FileNotFoundError` (the
Export button calls `compare_directories` with no prior check, so this is
reachable). The second conjunct shows a missing `dir_a` is caught as the
spec describes, supporting that the duplicated operand is a slip. -/
theorem C1_dir_b_not_checked :
    compare_directories fs_only_a "dirA" "dirB" = Outcome.raisedNotFound "dirB" ∧
    compare_directories fs_only_a "dirB" "dirA" = Outcome.dirNotFound :=
  ⟨rfl, rfl⟩

theorem only_in_a_rows_swap (A B : List String) :
    only_in_a_rows B A = (only_in_b_rows A B).map Row.swap := by
  unfold only_in_a_rows only_in_b_rows
  rw [List.map_map]
  rfl

theorem only_in_b_rows_swap (A B : List String) :
    only_in_b_rows B A = (only_in_a_rows A B).map Row.swap := by
  unfold only_in_a_rows only_in_b_rows
  rw [List.map_map]
  rfl

/-- Swapping the compared files swaps the produced row's status columns and
leaves its name and difference strings unchanged, since both `abs` calls of
lines 77-78 are symmetric. -/
theorem common_row_swap (a b : FileInfo) (f : String) :
    common_row b a f = Option.map Row.swap (common_row a b f) := by
  by_cases hc : a.content = b.content
  · rw [common_row_of_eq_content hc, common_row_of_eq_content hc.symm]
    rfl
  · have hc' : b.content ≠ a.content := fun h => hc h.symm
    by_cases hs : a.st_size = b.st_size
    · rw [common_row_of_same_size hc hs, common_row_of_same_size hc' hs.symm]
      rfl
    · have hs' : b.st_size ≠ a.st_size := fun h => hs h.symm
      rw [common_row_of_diff_size hs, common_row_of_diff_size hs']
      have e1 : ((b.st_size : Int) - (a.st_size : Int)).natAbs =
          ((a.st_size : Int) - (b.st_size : Int)).natAbs := by omega
      rw [e1, abs_sub_comm b.mtime a.mtime]
      rfl

theorem different_files_rows_swap (fs : FS) (dir_a dir_b : String) (names : List String) :
    different_files_rows fs dir_b dir_a names =
      (different_files_rows fs dir_a dir_b names).map Row.swap := by
  unfold different_files_rows
  rw [List.map_filterMap]
  have hfun : (fun file => Option.map Row.swap
        (common_row (fs.stat dir_a file) (fs.stat dir_b file) file)) =
      fun file => common_row (fs.stat dir_b file) (fs.stat dir_a file) file :=
    funext fun file => (common_row_swap _ _ file).symm
  rw [hfun]

theorem common_files_perm (A B : List String) (hA : A.Nodup) (hB : B.Nodup) :
    (common_files B A).Perm (common_files A B) := by
  unfold common_files
  rw [List.perm_ext_iff_of_nodup (List.Nodup.filter _ hB) (List.Nodup.filter _ hA)]
  intro x
  simp only [List.mem_filter, decide_eq_true_eq]
  exact and_comm

/-- C6: with the filesystem fixed, comparing `(B, A)` yields, up to
permutation, exactly the rows of comparing `(A, B)` with the two status
columns exchanged; in particular the flagged file names are the same. -/
theorem C6_symmetry (fs : FS) (dir_a dir_b : String) (la lb : List String)
    (r1 r2 : List Row)
    (ha : fs.listdir dir_a = some la) (hb : fs.listdir dir_b = some lb)
    (h1 : compare_directories fs dir_a dir_b = Outcome.table r1)
    (h2 : compare_directories fs dir_b dir_a = Outcome.table r2) :
    r2.Perm (r1.map Row.swap) ∧
    (r2.map Row.file_name).Perm (r1.map Row.file_name) := by
  have hperm : r2.Perm (r1.map Row.swap) := by
    have er2 : r2 =
        (only_in_b_rows la.dedup lb.dedup).map Row.swap ++
        (only_in_a_rows la.dedup lb.dedup).map Row.swap ++
        (different_files_rows fs dir_a dir_b (common_files lb.dedup la.dedup)).map Row.swap := by
      rw [rows_eq_of_table hb ha h2, only_in_a_rows_swap la.dedup lb.dedup,
        only_in_b_rows_swap la.dedup lb.dedup, different_files_rows_swap]
    rw [er2, rows_eq_of_table ha hb h1, List.map_append, List.map_append]
    refine List.Perm.append List.perm_append_comm ?_
    exact (List.Perm.filterMap _
      (common_files_perm la.dedup lb.dedup (List.nodup_dedup la) (List.nodup_dedup lb))).map
      Row.swap
  refine ⟨hperm, ?_⟩
  have hswap : (r1.map Row.swap).map Row.file_name = r1.map Row.file_name := by
    rw [List.map_map]
    rfl
  have h := hperm.map Row.file_name
  rwa [hswap] at h

/-- C7: `compare_directories` is a function of the filesystem state alone,
so two invocations against the same unmodified state return the same rows —
in particular the same multiset of rows, hence identical result sets modulo
row ordering. -/
theorem C7_deterministic (fs : FS) (dir_a dir_b : String) (r1 r2 : List Row)
    (h1 : compare_directories fs dir_a dir_b = Outcome.table r1)
    (h2 : compare_directories fs dir_a dir_b = Outcome.table r2) :
    (r1 : Multiset Row) = (r2 : Multiset Row) := by
  have h := h1.symm.trans h2
  injection h with h
  rw [h]

/-- C8: with a chosen save path the export writes a CSV whose header record
is exactly the five column names and whose data has one record of cells per
row; when the dialog is cancelled (empty path) nothing is written. -/
theorem C8_export_csv (rows : List Row) (file_path : String) (h : file_path ≠ "") :
    export_to_csv rows file_path = some ⟨file_path, columns, rows.map Row.cells⟩ ∧
    (rows.map Row.cells).length = rows.length ∧
    export_to_csv rows "" = none := by
  have hne : file_path.isEmpty = false := by
    rw [Bool.eq_false_iff]
    intro hempty
    exact h ((String.isEmpty_iff _).mp hempty)
  refine ⟨?_, by simp, rfl⟩
  unfold export_to_csv
  rw [hne]
  rfl

theorem cell_le_trans (col : Col) : ∀ a b c : Row,
    decide (a.cell col ≤ b.cell col) = true → decide (b.cell col ≤ c.cell col) = true →
    decide (a.cell col ≤ c.cell col) = true := by
  intro a b c hab hbc
  exact decide_eq_true (le_trans (of_decide_eq_true hab) (of_decide_eq_true hbc))

theorem cell_le_total (col : Col) : ∀ a b : Row,
    (decide (a.cell col ≤ b.cell col) || decide (b.cell col ≤ a.cell col)) = true := by
  intro a b
  rcases le_total (a.cell col) (b.cell col) with h | h
  · rw [decide_eq_true h, Bool.true_or]
  · rw [decide_eq_true h, Bool.or_true]

/-- C9: `sort_by_column` permutes the displayed rows into an order sorted by
the lexicographic string order of the clicked column's cell text, and it is
stable: a block of rows with pairwise equal cell text stays a subsequence in
its original order. On numeric-looking cells the string order shows:
"200 bytes" is placed before "30 bytes" although 200 > 30 numerically. -/
theorem C9_sort_by_column (rows : List Row) (col : Col) :
    (sort_by_column rows col).Perm rows ∧
    (sort_by_column rows col).Pairwise (fun r s => r.cell col ≤ s.cell col) ∧
    (∀ c : List Row, c.Sublist rows → c.Pairwise (fun r s => r.cell col = s.cell col) →
      c.Sublist (sort_by_column rows col)) ∧
    sort_by_column [demo_row_30, demo_row_200] Col.size_col = [demo_row_200, demo_row_30] := by
  refine ⟨List.mergeSort_perm rows _, ?_, ?_, ?_⟩
  · have h := @List.sorted_mergeSort Row (fun x y => decide (x.cell col ≤ y.cell col))
      (cell_le_trans col) (cell_le_total col) rows
    exact h.imp fun hab => of_decide_eq_true hab
  · intro c hsub hpair
    exact @List.sublist_mergeSort Row (fun x y => decide (x.cell col ≤ y.cell col)) rows
      (cell_le_trans col) (cell_le_total col) c
      (hpair.imp fun h => decide_eq_true (le_of_eq h)) hsub
  · have hperm : (sort_by_column [demo_row_30, demo_row_200] Col.size_col).Perm
        [demo_row_30, demo_row_200] := List.mergeSort_perm _ _
    have hsorted : (sort_by_column [demo_row_30, demo_row_200] Col.size_col).Pairwise
        (fun r s => decide (r.cell Col.size_col ≤ s.cell Col.size_col) = true) :=
      @List.sorted_mergeSort Row (fun x y => decide (x.cell Col.size_col ≤ y.cell Col.size_col))
        (cell_le_trans Col.size_col) (cell_le_total Col.size_col) [demo_row_30, demo_row_200]
    have hlen : (sort_by_column [demo_row_30, demo_row_200] Col.size_col).length = 2 := by
      rw [hperm.length_eq]
      rfl
    rcases List.length_eq_two.mp hlen with ⟨a, b, hab⟩
    have h30 : demo_row_30 ∈ sort_by_column [demo_row_30, demo_row_200] Col.size_col :=
      hperm.mem_iff.mpr (by simp)
    have h200 : demo_row_200 ∈ sort_by_column [demo_row_30, demo_row_200] Col.size_col :=
      hperm.mem_iff.mpr (by simp)
    rw [hab] at h30 h200 hsorted ⊢
    have hne : demo_row_30 ≠ demo_row_200 := by decide
    simp at h30 h200
    rcases h200 with h | h
    · rcases h30 with h' | h'
      · exact absurd (h'.trans h.symm) hne
      · rw [← h, ← h']
    · rcases h30 with h' | h'
      · exfalso
        have hle := (List.pairwise_cons.mp hsorted).1 b (by simp)
        rw [← h, ← h'] at hle
        have hcontra : ¬ demo_row_30.cell Col.size_col ≤ demo_row_200.cell Col.size_col := by
          rw [show demo_row_30.cell Col.size_col = "30 bytes" from rfl,
            show demo_row_200.cell Col.size_col = "200 bytes" from rfl,
            String.le_iff_toList_le]
          decide
        exact absurd (of_decide_eq_true hle) hcontra
      · exact absurd (h'.trans h.symm) hne

/-- C10: the result rows always come as three contiguous groups in a fixed
order: first all rows for names only in directory A, then all rows for names
only in directory B, then all rows for common names with byte-differing
content. -/
theorem C10_group_order (fs : FS) (dir_a dir_b : String) (la lb : List String)
    (rows : List Row)
    (ha : fs.listdir dir_a = some la) (hb : fs.listdir dir_b = some lb)
    (ht : compare_directories fs dir_a dir_b = Outcome.table rows) :
    ∃ g1 g2 g3 : List Row, rows = g1 ++ g2 ++ g3 ∧
      (∀ r ∈ g1, ∃ file, r = ⟨file, present, missing, n_a_symbol, n_a_symbol⟩ ∧
        file ∈ la ∧ file ∉ lb) ∧
      (∀ r ∈ g2, ∃ file, r = ⟨file, missing, present, n_a_symbol, n_a_symbol⟩ ∧
        file ∈ lb ∧ file ∉ la) ∧
      (∀ r ∈ g3, r.file_name ∈ la ∧ r.file_name ∈ lb ∧
        (fs.stat dir_a r.file_name).content ≠ (fs.stat dir_b r.file_name).content) := by
  refine ⟨_, _, _, rows_eq_of_table ha hb ht, ?_, ?_, ?_⟩
  · intro r hr
    unfold only_in_a_rows at hr
    rcases List.mem_map.mp hr with ⟨x, hx, rfl⟩
    rcases List.mem_filter.mp hx with ⟨hxA, hxB⟩
    exact ⟨x, rfl, List.mem_dedup.mp hxA,
      fun hmem => (of_decide_eq_true hxB) (List.mem_dedup.mpr hmem)⟩
  · intro r hr
    unfold only_in_b_rows at hr
    rcases List.mem_map.mp hr with ⟨x, hx, rfl⟩
    rcases List.mem_filter.mp hx with ⟨hxB, hxA⟩
    exact ⟨x, rfl, List.mem_dedup.mp hxB,
      fun hmem => (of_decide_eq_true hxA) (List.mem_dedup.mpr hmem)⟩
  · intro r hr
    unfold different_files_rows at hr
    rcases List.mem_filterMap.mp hr with ⟨x, hx, hgx⟩
    unfold common_files at hx
    rcases List.mem_filter.mp hx with ⟨hxA, hxB⟩
    have hname := common_row_name hgx
    have hcontent := common_row_of_some hgx
    rw [hname]
    exact ⟨List.mem_dedup.mp hxA, List.mem_dedup.mp (of_decide_eq_true hxB), hcontent⟩

/-- C2 witness: on `fs_demo`, the byte-identical "ident.txt" contributes no
row while the metadata-identical but byte-differing "meta.txt" does. -/
theorem C2_byte_content_decides_witness :
    demo_rows.filter (fun r => r.file_name == "ident.txt") = [] ∧
    demo_rows.filter (fun r => r.file_name == "meta.txt") ≠ [] :=
  ⟨(C2_byte_content_decides fs_demo "A" "B" "ident.txt" demo_la demo_lb demo_rows
      rfl rfl rfl (by decide) (by decide)).1 (by decide),
    (C2_byte_content_decides fs_demo "A" "B" "meta.txt" demo_la demo_lb demo_rows
      rfl rfl rfl (by decide) (by decide)).2 (by decide)⟩

/-- C3 witness: on `fs_demo`, each one-sided name yields exactly its one
row. -/
theorem C3_one_sided_names_witness :
    demo_rows.filter (fun r => r.file_name == "onlyA.txt") =
      [⟨"onlyA.txt", present, missing, n_a_symbol, n_a_symbol⟩] ∧
    demo_rows.filter (fun r => r.file_name == "onlyB.txt") =
      [⟨"onlyB.txt", missing, present, n_a_symbol, n_a_symbol⟩] :=
  ⟨(C3_one_sided_names fs_demo "A" "B" "onlyA.txt" demo_la demo_lb demo_rows rfl rfl rfl).1
      (by decide) (by decide),
    (C3_one_sided_names fs_demo "A" "B" "onlyB.txt" demo_la demo_lb demo_rows rfl rfl rfl).2
      (by decide) (by decide)⟩

/-- C4 witness: on `fs_demo2`, "size.txt" yields exactly the one
Different Size row with non-sentinel difference fields. -/
theorem C4_different_size_row_witness :
    ([demo_ds_row] : List Row).filter (fun r => r.file_name == "size.txt") = [demo_ds_row] ∧
    demo_ds_row.size_difference ≠ n_a_symbol ∧
    demo_ds_row.time_difference ≠ n_a_symbol :=
  C4_different_size_row fs_demo2 "A" "B" "size.txt" ["size.txt"] ["size.txt"] [demo_ds_row]
    rfl rfl rfl (by decide) (by decide) (by decide) (by decide)

/-- C5 witness: on `fs_demo`, "meta.txt" (equal sizes, different bytes)
yields exactly the one Present/Present row with sentinel fields. -/
theorem C5_same_size_row_witness :
    demo_rows.filter (fun r => r.file_name == "meta.txt") =
      [⟨"meta.txt", present, present, n_a_symbol, n_a_symbol⟩] :=
  C5_same_size_row fs_demo "A" "B" "meta.txt" demo_la demo_lb demo_rows rfl rfl rfl
    (by decide) (by decide) (by decide) (by decide)

/-- C6 witness: the two comparison directions of `fs_demo` produce the same
rows up to permutation and status swap. -/
theorem C6_symmetry_witness :
    demo_rows_ba.Perm (demo_rows.map Row.swap) ∧
    (demo_rows_ba.map Row.file_name).Perm (demo_rows.map Row.file_name) :=
  C6_symmetry fs_demo "A" "B" demo_la demo_lb demo_rows demo_rows_ba rfl rfl rfl rfl

/-- C7 witness: two invocations on `fs_demo` agree as multisets of rows. -/
theorem C7_deterministic_witness :
    (demo_rows : Multiset Row) = (demo_rows : Multiset Row) :=
  C7_deterministic fs_demo "A" "B" demo_rows demo_rows rfl rfl

/-- C8 witness: exporting the demo rows to "result.csv" writes header and
data, and exporting with a cancelled dialog writes nothing. -/
theorem C8_export_csv_witness :
    export_to_csv demo_rows "result.csv" =
      some ⟨"result.csv", columns, demo_rows.map Row.cells⟩ ∧
    (demo_rows.map Row.cells).length = demo_rows.length ∧
    export_to_csv demo_rows "" = none :=
  C8_export_csv demo_rows "result.csv" (by decide)

/-- C9 witness: sorting two concrete rows by the size column is a
permutation, and a single row (trivially pairwise-equal block) stays a
subsequence. -/
theorem C9_sort_by_column_witness :
    (sort_by_column [demo_row_30, demo_row_200] Col.size_col).Perm
      [demo_row_30, demo_row_200] ∧
    [demo_row_200].Sublist (sort_by_column [demo_row_30, demo_row_200] Col.size_col) :=
  ⟨(C9_sort_by_column [demo_row_30, demo_row_200] Col.size_col).1,
    (C9_sort_by_column [demo_row_30, demo_row_200] Col.size_col).2.2.1 [demo_row_200]
      (List.Sublist.cons demo_row_30 (List.Sublist.refl [demo_row_200]))
      (List.pairwise_singleton _ _)⟩

/-- C10 witness: the demo comparison's rows decompose into the three
groups. -/
theorem C10_group_order_witness :
    ∃ g1 g2 g3 : List Row, demo_rows = g1 ++ g2 ++ g3 ∧
      (∀ r ∈ g1, ∃ file, r = ⟨file, present, missing, n_a_symbol, n_a_symbol⟩ ∧
        file ∈ demo_la ∧ file ∉ demo_lb) ∧
      (∀ r ∈ g2, ∃ file, r = ⟨file, missing, present, n_a_symbol, n_a_symbol⟩ ∧
        file ∈ demo_lb ∧ file ∉ demo_la) ∧
      (∀ r ∈ g3, r.file_name ∈ demo_la ∧ r.file_name ∈ demo_lb ∧
        (fs_demo.stat "A" r.file_name).content ≠ (fs_demo.stat "B" r.file_name).content) :=
  C10_group_order fs_demo "A" "B" demo_la demo_lb demo_rows rfl rfl rfl
